import Mathlib

set_option autoImplicit false

/-
Shallow embedding of the AI-Sales-Intelligence-Tool repository
(src/src/get_news.py and src/config/default_triggers.py).

Modelling conventions:
- Python dicts used as records become Lean structures; the usage ledger
  (a JSON object mapping ISO date strings to counts) becomes an ordered
  association list with dict-style first-key lookup and in-place update.
- Calendar dates are modelled as natural numbers (day indices); the
  source compares ISO-8601 date strings, whose lexicographic order
  agrees with chronological order, so the comparison k >= cutoff_date
  on strings is the comparison cutoff <= k on day numbers.
- The external NewsAPI client is an oracle parameter
  api : Request -> Except String Response; a raised exception is the
  error case, a returned payload the ok case. Each function also
  returns the list of requests it issued (the observable interaction
  with the network layer) and the resulting persisted ledger store,
  making the side effects of the Python code explicit state.
- datetime.now() based values (the current day, the formatted from/to
  dates, the save timestamp) are opaque parameters.
- A missing or unreadable usage file is the store value none.
-/

namespace SalesIntel

/-- Article record from the API: the url field (absent key modelled as
none), an opaque payload standing for all other fields, and the
trigger_type tag added by fetch_sales_triggers (absent before tagging). -/
structure Article where
  url : Option String
  payload : String := ""
  trigger_type : Option String := none
deriving Repr, DecidableEq

/-- Python truthiness of the value article.get("url"): None and the
empty string are falsy. -/
def urlTruthy : Option String → Bool
  | none => false
  | some s => !(s == "")

/-- Loop of deduplicate_articles (get_news.py lines 187-193): walk the
list keeping a set of seen urls; keep an article only when its url is
truthy and not yet seen. -/
def dedupGo : List String → List Article → List Article
  | _, [] => []
  | seen, a :: rest =>
    match a.url with
    | none => dedupGo seen rest
    | some u =>
      if u ≠ "" ∧ u ∉ seen then a :: dedupGo (u :: seen) rest
      else dedupGo seen rest

/-- deduplicate_articles (get_news.py lines 185-194): remove duplicate
articles based on URL. -/
def deduplicate_articles (articles : List Article) : List Article :=
  dedupGo [] articles

/-- Modelled from the spec: the claim C4 characterisation of dedup.
Keep an article iff its URL is present and non-empty and no earlier
article in the input (kept or dropped) has the same URL. -/
def specKeep (earlier : List Article) (a : Article) : Bool :=
  match a.url with
  | none => false
  | some u => !(u == "") && earlier.all (fun b => !(b.url == some u))

/-- Modelled from the spec: stable left-to-right filter of the input by
specKeep, where earlier accumulates all already-visited input articles. -/
def dedupSpecGo (earlier : List Article) : List Article → List Article
  | [] => []
  | a :: rest =>
    if specKeep earlier a then a :: dedupSpecGo (earlier ++ [a]) rest
    else dedupSpecGo (earlier ++ [a]) rest

/-- Modelled from the spec: the stable filter the claim C4 describes. -/
def dedupSpec (l : List Article) : List Article :=
  dedupSpecGo [] l

/-- The usage ledger: a JSON object mapping day numbers to call counts,
kept in insertion order like a Python dict. -/
abbrev Ledger := List (Nat × Nat)

/-- Dict lookup: value of the first (hence, for a Python dict, only)
entry with the given key. -/
def lookupD : Ledger → Nat → Option Nat
  | [], _ => none
  | (k', v) :: rest, k => if k' = k then some v else lookupD rest k

/-- Dict assignment usage_data[k] = v: update the entry in place when
the key is present, otherwise append a new entry at the end. -/
def setKey : Ledger → Nat → Nat → Ledger
  | [], k, v => [(k, v)]
  | (k', v') :: rest, k, v =>
    if k' = k then (k, v) :: rest else (k', v') :: setKey rest k v

/-- track_api_usage (get_news.py lines 137-165): load the store (an
unreadable or missing file gives the empty dict), increment the bucket
for today (creating it at 0 first when absent), drop entries whose date
is before today minus 7 days, and persist the result. -/
def track_api_usage (today : Nat) (store : Option Ledger) : Ledger :=
  let usage := store.getD []
  let usage2 := setKey usage today ((lookupD usage today).getD 0 + 1)
  usage2.filter (fun p => decide (today - 7 ≤ p.1))

/-- get_api_usage_today (get_news.py lines 168-181): today's bucket, or
0 when the store is missing/unreadable or has no bucket for today. -/
def get_api_usage_today (today : Nat) (store : Option Ledger) : Nat :=
  match store with
  | none => 0
  | some usage => (lookupD usage today).getD 0

/-- A request to the get_everything endpoint of the NewsAPI client,
with the keyword arguments the source passes (to_arg models the kwarg
named to, a reserved word here); exclude_domains is none when the
source does not pass that argument. -/
structure Request where
  q : String
  from_param : String
  to_arg : String
  sort_by : String
  language : String
  exclude_domains : Option String
deriving Repr, DecidableEq

/-- A response payload from the API: status string and article list. -/
structure Response where
  status : String
  articles : List Article
deriving Repr, DecidableEq

/-- The fixed journal-domain exclusion string (get_news.py line 32). -/
def exclude_domains : String := "arxiv.org,ieee.org,springer.com"

/-- Helper building the get_everything request from the keyword
arguments used at a call site. -/
def everythingRequest (q from_date to_date sort_by : String)
    (excl : Option String) : Request :=
  { q := q, from_param := from_date, to_arg := to_date, sort_by := sort_by,
    language := "en", exclude_domains := excl }

/-- fetch_news_by_query (get_news.py lines 18-47): issue one
get_everything request carrying the journal-domain exclusion; on
success record the call in the usage tracker and return the response;
on any exception return none, leaving the store untouched. The issued
request is logged in both cases (it reached the network layer). -/
def fetch_news_by_query (api : Request → Except String Response)
    (today : Nat) (query from_date to_date sort_by : String)
    (store : Option Ledger) :
    Option Response × List Request × Option Ledger :=
  let req := everythingRequest query from_date to_date sort_by (some exclude_domains)
  match api req with
  | .ok r => (some r, [req], some (track_api_usage today store))
  | .error _ => (none, [req], store)

/-- DEFAULT_TRIGGERS (config/default_triggers.py), in definition order,
with the commented-out entries omitted as in the source. -/
def DEFAULT_TRIGGERS : List (String × String) :=
  [ ("Patent & IP", "(company OR startup OR firm OR corporation) AND (patent OR \"intellectual property\" OR \"IP portfolio\" OR trademark) AND (granted OR filed OR awarded OR secures)"),
    ("Product Launch", "(company OR startup OR firm) AND (\"product launch\" OR \"launches\" OR \"unveils\" OR \"announces\" OR \"introduces\" OR \"new product\")"),
    ("Expansion", "(company OR startup OR firm) AND (expansion OR \"opens office\" OR \"opening\" OR \"expands into\" OR \"enters market\" OR \"new location\")") ]

/-- Python truthiness of the region argument: None and the empty string
are falsy (the test if region: in get_news.py line 93). -/
def regionTruthy : Option String → Bool
  | none => false
  | some r => !(r == "")

/-- The region-rewrite block of fetch_sales_triggers (get_news.py lines
91-97): when region is truthy rewrite every query to
(query) AND region, otherwise keep the catalog unchanged. -/
def queries_with_region (region : Option String)
    (tq : List (String × String)) : List (String × String) :=
  if regionTruthy region then
    tq.map (fun p => (p.1, "(" ++ p.2 ++ ") AND " ++ region.getD ""))
  else tq

/-- The tagging loop (get_news.py lines 116-119): stamp every article
of a response with the trigger label. -/
def tagArticles (name : String) (arts : List Article) : List Article :=
  arts.map (fun a => { a with trigger_type := some name })

/-- The per-query loop of fetch_sales_triggers (get_news.py lines
103-124): for each catalog entry issue one get_everything request
without a domain exclusion; on success record the call, and when the
status is ok and the article list non-empty tag and accumulate the
articles; on an exception skip to the next entry. Returns the
accumulated articles, the issued requests in order, and the store. -/
def fetchLoop (api : Request → Except String Response) (today : Nat)
    (from_date to_date sort_by : String) :
    List (String × String) → Option Ledger →
    List Article × List Request × Option Ledger
  | [], store => ([], [], store)
  | (name, query) :: rest, store =>
    let req := everythingRequest query from_date to_date sort_by none
    match api req with
    | .ok resp =>
      let store1 := some (track_api_usage today store)
      let tagged := if resp.status == "ok" && !resp.articles.isEmpty
                    then tagArticles name resp.articles else []
      let r := fetchLoop api today from_date to_date sort_by rest store1
      (tagged ++ r.1, req :: r.2.1, r.2.2)
    | .error _ =>
      let r := fetchLoop api today from_date to_date sort_by rest store
      (r.1, req :: r.2.1, r.2.2)

/-- The combined result dict returned by fetch_sales_triggers
(get_news.py lines 129-133). -/
structure TriggerResult where
  status : String
  totalResults : Nat
  articles : List Article
deriving Repr, DecidableEq

/-- fetch_sales_triggers (get_news.py lines 71-133): default the
catalog, apply the region rewrite, run the per-query loop, deduplicate
the accumulated articles and wrap them with status ok and the count. -/
def fetch_sales_triggers (api : Request → Except String Response)
    (trigger_queries : Option (List (String × String)))
    (sort_by : String) (region : Option String)
    (today : Nat) (from_date to_date : String)
    (store : Option Ledger) :
    TriggerResult × List Request × Option Ledger :=
  let tq := trigger_queries.getD DEFAULT_TRIGGERS
  let qs := queries_with_region region tq
  let r := fetchLoop api today from_date to_date sort_by qs store
  let unique := deduplicate_articles r.1
  ({ status := "ok", totalResults := unique.length, articles := unique },
   r.2.1, r.2.2)

/-- The metadata block written by save_news_to_file (get_news.py lines
212-217); timestamps are seconds, so 24 hours is 24 * 3600. -/
structure Metadata where
  fetched_at : Nat
  expires_at : Nat
  query_params : List (String × String)
deriving Repr, DecidableEq

/-- The document save_news_to_file writes (get_news.py lines 212-221). -/
structure SavedDocument where
  metadata : Metadata
  status : String
  totalResults : Nat
  articles : List Article
deriving Repr, DecidableEq

/-- save_news_to_file (get_news.py lines 197-229): when news_data is
falsy (absent) do nothing and return none; otherwise wrap it with
metadata (fetch time now, expiry now + 24 hours, the query parameters
or the empty dict) and return the written path with the document. The
data directory is a fixed location next to the sources. -/
def save_news_to_file (news_data : Option TriggerResult)
    (filename : String)
    (query_params : Option (List (String × String))) (now : Nat) :
    Option (String × SavedDocument) :=
  match news_data with
  | some nd =>
    some ("data/" ++ filename,
      { metadata := { fetched_at := now, expires_at := now + 24 * 3600,
                      query_params := query_params.getD [] },
        status := nd.status, totalResults := nd.totalResults,
        articles := nd.articles })
  | none => none

/-- Oracle with a constantly succeeding remote call returning an empty
article list. -/
def apiConstOk : Request → Except String Response :=
  fun _ => .ok { status := "ok", articles := [] }

/-- Oracle with a constantly raising remote call. -/
def apiConstErr : Request → Except String Response :=
  fun _ => .error "connection error"

/-- Oracle for the end-to-end scenario: query foo yields u1 and u2,
query bar yields u2 and u3, anything else raises. -/
def apiScenario : Request → Except String Response := fun req =>
  if req.q == "foo" then
    .ok { status := "ok",
          articles := [{ url := some "u1" }, { url := some "u2" }] }
  else if req.q == "bar" then
    .ok { status := "ok",
          articles := [{ url := some "u2" }, { url := some "u3" }] }
  else .error "no such query"

/-- Oracle for the partial-failure scenario: query bar succeeds with
the single article a, every other query raises e. -/
def apiOneGood (e : String) (a : Article) :
    Request → Except String Response := fun req =>
  if req.q == "bar" then .ok { status := "ok", articles := [a] }
  else .error e

/-
Lemmas about the deduplicator.
-/

/-- Extending the visited list with an article whose url is not the
non-empty u adds no witness for u. -/
theorem invariant_extend (seen : List String) (earlier : List Article)
    (a : Article)
    (h : ∀ u : String, u ≠ "" → (u ∈ seen ↔ ∃ b ∈ earlier, b.url = some u))
    (ha : ∀ u : String, u ≠ "" → a.url = some u → u ∈ seen) :
    ∀ u : String, u ≠ "" →
      (u ∈ seen ↔ ∃ b ∈ earlier ++ [a], b.url = some u) := by
  intro u hne
  rw [h u hne]
  constructor
  · rintro ⟨b, hb, hbu⟩
    exact ⟨b, List.mem_append_left _ hb, hbu⟩
  · rintro ⟨b, hb, hbu⟩
    rcases List.mem_append.mp hb with hb | hb
    · exact ⟨b, hb, hbu⟩
    · rw [List.mem_singleton.mp hb] at hbu
      exact (h u hne).mp (ha u hne hbu)

/-- The dedup loop agrees with the spec-side stable filter whenever the
seen set holds exactly the non-empty urls of the already-visited input
articles. -/
theorem dedupGo_eq_dedupSpecGo :
    ∀ (l : List Article) (seen : List String) (earlier : List Article),
    (∀ u : String, u ≠ "" → (u ∈ seen ↔ ∃ b ∈ earlier, b.url = some u)) →
    dedupGo seen l = dedupSpecGo earlier l := by
  intro l
  induction l with
  | nil => intro seen earlier _; rfl
  | cons a rest ih =>
    intro seen earlier h
    cases hu : a.url with
    | none =>
      have hk : ¬(specKeep earlier a = true) := by simp [specKeep, hu]
      have e1 : dedupGo seen (a :: rest) = dedupGo seen rest := by
        simp only [dedupGo, hu]
      have e2 : dedupSpecGo earlier (a :: rest)
          = dedupSpecGo (earlier ++ [a]) rest := by
        simp only [dedupSpecGo]
        rw [if_neg hk]
      rw [e1, e2]
      apply ih
      apply invariant_extend seen earlier a h
      intro u _ hau
      rw [hu] at hau
      cases hau
    | some u =>
      have e1k : (u ≠ "" ∧ u ∉ seen) →
          dedupGo seen (a :: rest) = a :: dedupGo (u :: seen) rest := by
        intro hc
        simp only [dedupGo, hu]
        rw [if_pos hc]
      have e1d : ¬(u ≠ "" ∧ u ∉ seen) →
          dedupGo seen (a :: rest) = dedupGo seen rest := by
        intro hc
        simp only [dedupGo, hu]
        rw [if_neg hc]
      by_cases hne : u = ""
      · subst hne
        have hk : ¬(specKeep earlier a = true) := by simp [specKeep, hu]
        have e2 : dedupSpecGo earlier (a :: rest)
            = dedupSpecGo (earlier ++ [a]) rest := by
          simp only [dedupSpecGo]
          rw [if_neg hk]
        rw [e1d (by simp), e2]
        apply ih
        apply invariant_extend seen earlier a h
        intro v hv hav
        rw [hu] at hav
        rw [Option.some.injEq] at hav
        exact absurd hav.symm hv
      · by_cases hs : u ∈ seen
        · have hk : ¬(specKeep earlier a = true) := by
            rcases (h u hne).mp hs with ⟨b, hb, hbu⟩
            simp only [specKeep, hu, Bool.and_eq_true, List.all_eq_true,
              not_and]
            intro _ hall
            have := hall b hb
            rw [hbu] at this
            simp at this
          have e2 : dedupSpecGo earlier (a :: rest)
              = dedupSpecGo (earlier ++ [a]) rest := by
            simp only [dedupSpecGo]
            rw [if_neg hk]
          rw [e1d (fun hcontra => hcontra.2 hs), e2]
          apply ih
          apply invariant_extend seen earlier a h
          intro v hv hav
          rw [hu] at hav
          rw [Option.some.injEq] at hav
          rw [← hav]
          exact hs
        · have hk : specKeep earlier a = true := by
            simp only [specKeep, hu, Bool.and_eq_true, List.all_eq_true]
            constructor
            · simp [hne]
            · intro b hb
              simp only [Bool.not_eq_true', beq_eq_false_iff_ne, ne_eq]
              intro hbu
              exact hs ((h u hne).mpr ⟨b, hb, hbu⟩)
          have e2 : dedupSpecGo earlier (a :: rest)
              = a :: dedupSpecGo (earlier ++ [a]) rest := by
            simp only [dedupSpecGo]
            rw [if_pos hk]
          rw [e1k ⟨hne, hs⟩, e2]
          congr 1
          apply ih
          intro v hv
          constructor
          · intro hv2
            rcases List.mem_cons.mp hv2 with rfl | hv2
            · exact ⟨a, List.mem_append_right _ (List.mem_singleton_self a),
                hu⟩
            · rcases (h v hv).mp hv2 with ⟨b, hb, hbu⟩
              exact ⟨b, List.mem_append_left _ hb, hbu⟩
          · rintro ⟨b, hb, hbu⟩
            rcases List.mem_append.mp hb with hb | hb
            · exact List.mem_cons_of_mem _ ((h v hv).mpr ⟨b, hb, hbu⟩)
            · rw [List.mem_singleton.mp hb] at hbu
              rw [hu] at hbu
              rw [Option.some.injEq] at hbu
              rw [← hbu]
              exact List.mem_cons_self _ _

/-- Every article kept by the dedup loop has a truthy url not in the
initial seen set. -/
theorem mem_dedupGo :
    ∀ (l : List Article) (seen : List String) (a : Article),
    a ∈ dedupGo seen l →
    urlTruthy a.url = true ∧ ∀ u, a.url = some u → u ∉ seen := by
  intro l
  induction l with
  | nil =>
    intro seen a h
    simp only [dedupGo] at h
    cases h
  | cons b rest ih =>
    intro seen a h
    cases hu : b.url with
    | none =>
      simp only [dedupGo, hu] at h
      exact ih seen a h
    | some u =>
      simp only [dedupGo, hu] at h
      by_cases hc : u ≠ "" ∧ u ∉ seen
      · rw [if_pos hc] at h
        rcases List.mem_cons.mp h with rfl | h
        · refine ⟨by simp [urlTruthy, hu, hc.1], ?_⟩
          intro v hv
          rw [hu] at hv
          rw [Option.some.injEq] at hv
          subst hv
          exact hc.2
        · rcases ih (u :: seen) a h with ⟨h1, h2⟩
          refine ⟨h1, ?_⟩
          intro v hv hvs
          exact h2 v hv (List.mem_cons_of_mem _ hvs)
      · rw [if_neg hc] at h
        exact ih seen a h

/-- The dedup loop output has pairwise distinct urls. -/
theorem dedupGo_pairwise :
    ∀ (l : List Article) (seen : List String),
    List.Pairwise (fun a b => a.url ≠ b.url) (dedupGo seen l) := by
  intro l
  induction l with
  | nil => intro seen; simp [dedupGo]
  | cons b rest ih =>
    intro seen
    cases hu : b.url with
    | none => simp only [dedupGo, hu]; exact ih seen
    | some u =>
      simp only [dedupGo, hu]
      by_cases hc : u ≠ "" ∧ u ∉ seen
      · rw [if_pos hc]
        refine List.Pairwise.cons ?_ (ih (u :: seen))
        intro c hc2
        rcases mem_dedupGo rest (u :: seen) c hc2 with ⟨h1, h2⟩
        cases hcu : c.url with
        | none => rw [hcu] at h1; simp [urlTruthy] at h1
        | some v =>
          have hvm : v ∉ u :: seen := h2 v hcu
          intro heq
          rw [hu] at heq
          rw [Option.some.injEq] at heq
          rw [← heq] at hvm
          exact hvm (List.mem_cons_self u seen)
      · rw [if_neg hc]
        exact ih seen

/-- A list of articles with truthy, pairwise distinct urls avoiding the
seen set is a fixed point of the dedup loop. -/
theorem dedupGo_fixed :
    ∀ (l : List Article) (seen : List String),
    (∀ a ∈ l, urlTruthy a.url = true) →
    List.Pairwise (fun a b => a.url ≠ b.url) l →
    (∀ a ∈ l, ∀ u, a.url = some u → u ∉ seen) →
    dedupGo seen l = l := by
  intro l
  induction l with
  | nil => intro seen _ _ _; rfl
  | cons b rest ih =>
    intro seen htr hpw hns
    cases hu : b.url with
    | none =>
      have := htr b (List.mem_cons_self b rest)
      rw [hu] at this
      simp [urlTruthy] at this
    | some u =>
      have hne : u ≠ "" := by
        have := htr b (List.mem_cons_self b rest)
        rw [hu] at this
        simpa [urlTruthy] using this
      have hs : u ∉ seen := hns b (List.mem_cons_self b rest) u hu
      simp only [dedupGo, hu, if_pos (And.intro hne hs)]
      congr 1
      apply ih (u :: seen)
      · intro a ha; exact htr a (List.mem_cons_of_mem _ ha)
      · exact List.Pairwise.of_cons hpw
      · intro a ha v hv hvs
        rcases List.mem_cons.mp hvs with rfl | hvs
        · have := (List.pairwise_cons.mp hpw).1 a ha
          rw [hu, hv] at this
          exact this rfl
        · exact hns a (List.mem_cons_of_mem _ ha) v hv hvs

/-
Lemmas about the usage ledger.
-/

/-- Dict assignment followed by lookup of the same key yields the
assigned value. -/
theorem lookupD_setKey_self :
    ∀ (l : Ledger) (k v : Nat), lookupD (setKey l k v) k = some v := by
  intro l k v
  induction l with
  | nil => simp [setKey, lookupD]
  | cons p rest ih =>
    obtain ⟨k2, v2⟩ := p
    by_cases h : k2 = k
    · subst h; simp [setKey, lookupD]
    · simp [setKey, lookupD, h, ih]

/-- Dict assignment leaves the value of every other key unchanged. -/
theorem lookupD_setKey_ne :
    ∀ (l : Ledger) (k v k2 : Nat), k2 ≠ k →
      lookupD (setKey l k v) k2 = lookupD l k2 := by
  intro l k v k2 hne
  induction l with
  | nil =>
    simp only [setKey, lookupD]
    rw [if_neg (fun h => hne h.symm)]
  | cons p rest ih =>
    obtain ⟨k3, v3⟩ := p
    by_cases h : k3 = k
    · subst h
      simp only [setKey, if_pos rfl, lookupD]
      rw [if_neg (fun h2 => hne h2.symm), if_neg (fun h2 => hne h2.symm)]
    · simp only [setKey, if_neg h, lookupD]
      by_cases h2 : k3 = k2
      · rw [if_pos h2, if_pos h2]
      · rw [if_neg h2, if_neg h2, ih]

/-- Filtering with a predicate that accepts every entry with key k does
not change the lookup of k. -/
theorem lookupD_filter (p : Nat × Nat → Bool) :
    ∀ (l : Ledger) (k : Nat), (∀ v, p (k, v) = true) →
      lookupD (l.filter p) k = lookupD l k := by
  intro l k hp
  induction l with
  | nil => rfl
  | cons q rest ih =>
    obtain ⟨k2, v2⟩ := q
    by_cases h : k2 = k
    · subst h
      rw [List.filter_cons, if_pos (hp v2)]
      simp [lookupD]
    · rw [List.filter_cons]
      by_cases h2 : p (k2, v2) = true
      · rw [if_pos h2]
        simp only [lookupD, if_neg h]
        exact ih
      · rw [if_neg h2]
        rw [ih]
        simp [lookupD, if_neg h]

/-- After track_api_usage, the bucket for today holds the previous
count (0 when absent or the store was unreadable) plus one. -/
theorem track_increments (today : Nat) (store : Option Ledger) :
    lookupD (track_api_usage today store) today
      = some ((lookupD (store.getD []) today).getD 0 + 1) := by
  simp only [track_api_usage]
  rw [lookupD_filter _ _ today (fun v => by simp)]
  exact lookupD_setKey_self _ _ _

/-- get_api_usage_today reads the bucket of today from the store, with
the missing/unreadable store giving 0. -/
theorem get_api_usage_eq (today : Nat) (store : Option Ledger) :
    get_api_usage_today today store
      = (lookupD (store.getD []) today).getD 0 := by
  cases store <;> simp [get_api_usage_today, lookupD]

/-- Recording a call on some store bumps the number reported for today
by exactly one. -/
theorem get_api_usage_today_track (today : Nat) (store : Option Ledger) :
    get_api_usage_today today (some (track_api_usage today store))
      = get_api_usage_today today store + 1 := by
  show (lookupD (track_api_usage today store) today).getD 0 = _
  rw [track_increments, get_api_usage_eq]
  rfl

/-
Lemmas about the fetch pipeline.
-/

/-- The per-query loop issues exactly one get_everything request per
catalog entry, in catalog order, each built from the entry query with
language en and no domain exclusion, regardless of the call outcomes. -/
theorem fetchLoop_requests (api : Request → Except String Response)
    (today : Nat) (from_date to_date sort_by : String) :
    ∀ (qs : List (String × String)) (store : Option Ledger),
      (fetchLoop api today from_date to_date sort_by qs store).2.1
        = qs.map (fun p => everythingRequest p.2 from_date to_date sort_by none) := by
  intro qs
  induction qs with
  | nil => intro store; rfl
  | cons p rest ih =>
    intro store
    obtain ⟨name, query⟩ := p
    cases h : api (everythingRequest query from_date to_date sort_by none) with
    | ok resp => simp [fetchLoop, h, ih]
    | error e => simp [fetchLoop, h, ih]

/-- fetch_news_by_query issues exactly one request, carrying the
journal-domain exclusion, whatever the call outcome. -/
theorem fetch_news_by_query_requests
    (api : Request → Except String Response) (today : Nat)
    (query from_date to_date sort_by : String) (store : Option Ledger) :
    (fetch_news_by_query api today query from_date to_date sort_by store).2.1
      = [everythingRequest query from_date to_date sort_by (some exclude_domains)] := by
  cases h : api (everythingRequest query from_date to_date sort_by (some exclude_domains)) with
  | ok resp => simp [fetch_news_by_query, h]
  | error e => simp [fetch_news_by_query, h]

/-
Claim theorems.
-/

/-- C1 counterexample: a fetch whose remote call raises returns none
but does NOT increment the bucket for today; starting from the empty
ledger the store is left unchanged and the count for today stays 0,
contradicting the claim that every attempted call increments it. -/
theorem C1_counterexample :
    (fetch_news_by_query apiConstErr 100 "patent" "2026-10-05"
        "2026-10-12" "publishedAt" (some [])).1 = none ∧
    (fetch_news_by_query apiConstErr 100 "patent" "2026-10-05"
        "2026-10-12" "publishedAt" (some [])).2.2 = some [] ∧
    get_api_usage_today 100
      (fetch_news_by_query apiConstErr 100 "patent" "2026-10-05"
        "2026-10-12" "publishedAt" (some [])).2.2 = 0 :=
  ⟨rfl, rfl, rfl⟩

/-- C1 amended: track_api_usage runs after a successful get_everything
call, so only a call that returns ok increments the bucket for today
(by exactly one); a call that raises is caught, returns none, and
leaves the persisted ledger untouched. -/
theorem C1_success_only_tracking
    (api : Request → Except String Response) (today : Nat)
    (query from_date to_date sort_by : String) (store : Option Ledger) :
    (∀ r, api (everythingRequest query from_date to_date sort_by
          (some exclude_domains)) = .ok r →
        (fetch_news_by_query api today query from_date to_date sort_by store).1
            = some r ∧
        get_api_usage_today today
          (fetch_news_by_query api today query from_date to_date sort_by store).2.2
            = get_api_usage_today today store + 1) ∧
    (∀ e, api (everythingRequest query from_date to_date sort_by
          (some exclude_domains)) = .error e →
        (fetch_news_by_query api today query from_date to_date sort_by store).1
            = none ∧
        (fetch_news_by_query api today query from_date to_date sort_by store).2.2
            = store) := by
  constructor
  · intro r hr
    simp only [fetch_news_by_query, hr]
    exact ⟨trivial, get_api_usage_today_track today store⟩
  · intro e he
    simp only [fetch_news_by_query, he]
    constructor <;> trivial

/-- C1 amended witness: at concrete inputs, a succeeding call moves the
count for day 100 from 0 to 1, and a raising call leaves the empty
store unchanged. -/
theorem C1_success_only_tracking_witness :
    get_api_usage_today 100
      (fetch_news_by_query apiConstOk 100 "patent" "2026-10-05"
        "2026-10-12" "publishedAt" (some [])).2.2 = 1 ∧
    (fetch_news_by_query apiConstErr 100 "patent" "2026-10-05"
        "2026-10-12" "publishedAt" (some [])).2.2 = some [] := by
  constructor
  · have h := ((C1_success_only_tracking apiConstOk 100 "patent"
      "2026-10-05" "2026-10-12" "publishedAt" (some [])).1
      { status := "ok", articles := [] } rfl).2
    exact h.trans (by decide)
  · exact ((C1_success_only_tracking apiConstErr 100 "patent"
      "2026-10-05" "2026-10-12" "publishedAt" (some [])).2
      "connection error" rfl).2

/-- C2 counterexample: for the catalog with the single entry A -> foo
and a succeeding remote call, the one request issued by
fetch_sales_triggers carries no domain exclusion at all (the source
does not pass exclude_domains there), so it does not carry the
academic-journal exclusion. -/
theorem C2_counterexample :
    ((fetch_sales_triggers apiConstOk (some [("A", "foo")]) "publishedAt"
        none 100 "2026-10-05" "2026-10-12" (some [])).2.1).map
      (fun r => r.exclude_domains) = [none] ∧
    (none : Option String) ≠ some exclude_domains := by
  exact ⟨rfl, by simp⟩

/-- C2 amended: fetch_news_by_query issues its request with the fixed
academic-journal exclusion, but every per-query request issued by
fetch_sales_triggers is built without any domain exclusion. -/
theorem C2_exclusion_split
    (api : Request → Except String Response) (today : Nat)
    (query from_date to_date sort_by : String)
    (tq : Option (List (String × String))) (region : Option String)
    (store : Option Ledger) :
    ((fetch_news_by_query api today query from_date to_date sort_by store).2.1).all
        (fun r => r.exclude_domains == some exclude_domains) = true ∧
    ((fetch_sales_triggers api tq sort_by region today from_date to_date store).2.1).all
        (fun r => r.exclude_domains == none) = true := by
  constructor
  · rw [fetch_news_by_query_requests]
    simp [everythingRequest]
  · simp only [fetch_sales_triggers]
    rw [fetchLoop_requests, List.all_eq_true]
    intro req hreq
    rw [List.mem_map] at hreq
    obtain ⟨p, _, hp⟩ := hreq
    rw [← hp]
    rfl

/-- C3: on the catalog A -> foo, B -> bar with the scenario oracle, the
batch result keeps u1 and u2 tagged A (u2 first seen under A), u3
tagged B, and totalResults is 3. -/
theorem C3_end_to_end :
    (fetch_sales_triggers apiScenario (some [("A", "foo"), ("B", "bar")])
        "publishedAt" none 100 "2026-10-05" "2026-10-12" (some [])).1
      = { status := "ok", totalResults := 3,
          articles := [{ url := some "u1", trigger_type := some "A" },
                       { url := some "u2", trigger_type := some "A" },
                       { url := some "u3", trigger_type := some "B" }] } := by
  rfl

/-- C4: deduplicate_articles is exactly the stable left-to-right filter
keeping an article iff its url is present, non-empty and not the url of
any earlier input article (dedupSpec); consequently every article of
the output has a truthy url and output urls are pairwise distinct. -/
theorem C4_dedup_stable_filter (l : List Article) :
    deduplicate_articles l = dedupSpec l ∧
    (deduplicate_articles l).all (fun a => urlTruthy a.url) = true ∧
    List.Pairwise (fun a b => a.url ≠ b.url) (deduplicate_articles l) := by
  refine ⟨?_, ?_, ?_⟩
  · exact dedupGo_eq_dedupSpecGo l [] [] (by simp)
  · rw [List.all_eq_true]
    intro a ha
    exact (mem_dedupGo l [] a ha).1
  · exact dedupGo_pairwise l []

/-- C4 witness: the characterisation evaluated on a concrete input with
a duplicate url, a missing url and an empty url. -/
theorem C4_dedup_stable_filter_witness :
    deduplicate_articles
        [{ url := some "u1" }, { url := none }, { url := some "" },
         { url := some "u1", payload := "x" }, { url := some "u2" }]
      = dedupSpec
        [{ url := some "u1" }, { url := none }, { url := some "" },
         { url := some "u1", payload := "x" }, { url := some "u2" }] ∧
    (deduplicate_articles
        [{ url := some "u1" }, { url := none }, { url := some "" },
         { url := some "u1", payload := "x" }, { url := some "u2" }]).all
      (fun a => urlTruthy a.url) = true ∧
    List.Pairwise (fun a b => a.url ≠ b.url)
      (deduplicate_articles
        [{ url := some "u1" }, { url := none }, { url := some "" },
         { url := some "u1", payload := "x" }, { url := some "u2" }]) :=
  C4_dedup_stable_filter
    [{ url := some "u1" }, { url := none }, { url := some "" },
     { url := some "u1", payload := "x" }, { url := some "u2" }]

/-- C5: deduplication is idempotent. -/
theorem C5_dedup_idempotent (L : List Article) :
    deduplicate_articles (deduplicate_articles L)
      = deduplicate_articles L := by
  apply dedupGo_fixed
  · intro a ha
    exact (mem_dedupGo L [] a ha).1
  · exact dedupGo_pairwise L []
  · intro a _ u _ hu
    cases hu

/-- C6: record_call full postcondition: the bucket for today in the
persisted ledger is the previous count plus one (1 when the bucket was
absent or the store unreadable), every surviving entry is at least the
cutoff today - 7, every other entry at or past the cutoff keeps its
count, and on the unreadable/empty store the result is exactly the
singleton ledger mapping today to 1. -/
theorem C6_record_call (today : Nat) (store : Option Ledger) :
    lookupD (track_api_usage today store) today
        = some ((lookupD (store.getD []) today).getD 0 + 1) ∧
    (track_api_usage today store).all
        (fun p => decide (today - 7 ≤ p.1)) = true ∧
    (∀ k v, k ≠ today → today - 7 ≤ k →
        lookupD (store.getD []) k = some v →
        lookupD (track_api_usage today store) k = some v) ∧
    track_api_usage today none = [(today, 1)] := by
  refine ⟨track_increments today store, ?_, ?_, ?_⟩
  · rw [List.all_eq_true]
    intro p hp
    simp only [track_api_usage] at hp
    exact (List.mem_filter.mp hp).2
  · intro k v hk hcut hv
    simp only [track_api_usage]
    rw [lookupD_filter _ _ k (fun w => by simp [hcut])]
    rw [lookupD_setKey_ne _ _ _ _ hk]
    exact hv
  · simp [track_api_usage, setKey, lookupD, List.filter]

/-- C6 witness: recording on day 100 over a store holding days 90, 95
and 100 gives 4 for today, drops day 90, keeps day 95 at 2; recording
on the unreadable store gives exactly the singleton ledger for day
100. -/
theorem C6_record_call_witness :
    lookupD (track_api_usage 100 (some [(90, 5), (95, 2), (100, 3)])) 100
        = some 4 ∧
    lookupD (track_api_usage 100 (some [(90, 5), (95, 2), (100, 3)])) 95
        = some 2 ∧
    track_api_usage 100 none = [(100, 1)] := by
  refine ⟨?_, ?_, ?_⟩
  · exact ((C6_record_call 100 (some [(90, 5), (95, 2), (100, 3)])).1).trans
      (by decide)
  · exact (C6_record_call 100 (some [(90, 5), (95, 2), (100, 3)])).2.2.1 95 2
      (by decide) (by decide) (by decide)
  · exact (C6_record_call 100 none).2.2.2

/-- C7: with a non-empty region, every issued query string is exactly
the catalog query wrapped as (query) AND region, in catalog order. -/
theorem C7_region_rewrite (api : Request → Except String Response)
    (tq : List (String × String)) (r : String) (today : Nat)
    (from_date to_date sort_by : String) (store : Option Ledger)
    (h : r ≠ "") :
    ((fetch_sales_triggers api (some tq) sort_by (some r) today
        from_date to_date store).2.1).map (fun req => req.q)
      = tq.map (fun p => "(" ++ p.2 ++ ") AND " ++ r) := by
  have hr : regionTruthy (some r) = true := by simp [regionTruthy, h]
  simp only [fetch_sales_triggers]
  rw [fetchLoop_requests]
  simp [queries_with_region, hr, everythingRequest]

/-- C7 witness: for the catalog entry A -> foo and region Singapore the
single issued query string is (foo) AND Singapore. -/
theorem C7_region_rewrite_witness :
    ((fetch_sales_triggers apiConstOk (some [("A", "foo")]) "publishedAt"
        (some "Singapore") 100 "2026-10-05" "2026-10-12" (some [])).2.1).map
      (fun req => req.q) = ["(foo) AND Singapore"] :=
  (C7_region_rewrite apiConstOk [("A", "foo")] "Singapore" 100
      "2026-10-05" "2026-10-12" "publishedAt" (some []) (by decide)).trans
    (by decide)

/-- C8: per-query failure is non-fatal: with catalog A -> foo, B -> bar
where foo raises and bar succeeds with the single article a (with a
usable url), the batch result holds exactly a tagged B, totalResults is
1, and both queries were still issued; the pipeline is a total function
returning this value, so no exception reaches the caller. -/
theorem C8_partial_failure (e : String) (a : Article)
    (h : urlTruthy a.url = true) :
    (fetch_sales_triggers (apiOneGood e a) (some [("A", "foo"), ("B", "bar")])
        "publishedAt" none 100 "2026-10-05" "2026-10-12" (some [])).1.articles
      = [{ a with trigger_type := some "B" }] ∧
    (fetch_sales_triggers (apiOneGood e a) (some [("A", "foo"), ("B", "bar")])
        "publishedAt" none 100 "2026-10-05" "2026-10-12" (some [])).1.totalResults
      = 1 ∧
    ((fetch_sales_triggers (apiOneGood e a) (some [("A", "foo"), ("B", "bar")])
        "publishedAt" none 100 "2026-10-05" "2026-10-12" (some [])).2.1).length
      = 2 := by
  cases hau : a.url with
  | none => rw [hau] at h; simp [urlTruthy] at h
  | some u =>
    have hne : u ≠ "" := by
      rw [hau] at h
      simpa [urlTruthy] using h
    refine ⟨?_, ?_, ?_⟩
    · simp [fetch_sales_triggers, queries_with_region, regionTruthy,
        fetchLoop, apiOneGood, everythingRequest, tagArticles,
        deduplicate_articles, dedupGo, hau, hne]
    · simp [fetch_sales_triggers, queries_with_region, regionTruthy,
        fetchLoop, apiOneGood, everythingRequest, tagArticles,
        deduplicate_articles, dedupGo, hau, hne]
    · simp [fetch_sales_triggers, queries_with_region, regionTruthy,
        fetchLoop, apiOneGood, everythingRequest]

/-- C8 witness: the scenario evaluated at a concrete article. -/
theorem C8_partial_failure_witness :
    (fetch_sales_triggers (apiOneGood "boom" { url := some "u9" })
        (some [("A", "foo"), ("B", "bar")])
        "publishedAt" none 100 "2026-10-05" "2026-10-12" (some [])).1.articles
      = [{ url := some "u9", trigger_type := some "B" }] ∧
    (fetch_sales_triggers (apiOneGood "boom" { url := some "u9" })
        (some [("A", "foo"), ("B", "bar")])
        "publishedAt" none 100 "2026-10-05" "2026-10-12" (some [])).1.totalResults
      = 1 ∧
    ((fetch_sales_triggers (apiOneGood "boom" { url := some "u9" })
        (some [("A", "foo"), ("B", "bar")])
        "publishedAt" none 100 "2026-10-05" "2026-10-12" (some [])).2.1).length
      = 2 :=
  C8_partial_failure "boom" { url := some "u9" } (by decide)

/-- C9: save_news_to_file is a no-op returning none on an absent
result; otherwise it returns the output path and the wrapped document,
whose expiry is the fetch time plus exactly 24 hours and whose
query_params are the given parameters (empty when absent). -/
theorem C9_save (nd : TriggerResult) (filename : String)
    (qp : Option (List (String × String))) (now : Nat) :
    save_news_to_file none filename qp now = none ∧
    save_news_to_file (some nd) filename qp now
      = some ("data/" ++ filename,
          { metadata := { fetched_at := now, expires_at := now + 24 * 3600,
                          query_params := qp.getD [] },
            status := nd.status, totalResults := nd.totalResults,
            articles := nd.articles }) :=
  ⟨rfl, rfl⟩

/-- C10: an empty-string region is falsy, so no query is rewritten: the
rewrite stage returns the catalog unchanged and the whole pipeline
behaves exactly as with no region at all. -/
theorem C10_empty_region (api : Request → Except String Response)
    (tq : Option (List (String × String))) (today : Nat)
    (from_date to_date sort_by : String) (store : Option Ledger)
    (catalog : List (String × String)) :
    queries_with_region (some "") catalog = catalog ∧
    fetch_sales_triggers api tq sort_by (some "") today from_date to_date store
      = fetch_sales_triggers api tq sort_by none today from_date to_date store := by
  constructor
  · simp [queries_with_region, regionTruthy]
  · simp [fetch_sales_triggers, queries_with_region, regionTruthy]

end SalesIntel
